import Mathlib

/-!
Verification development for the FinanceMonitor repository.

Shallow embedding of the token-cache logic (`cloud_run_job/iol.py` and
`iol.py`, whose token functions are identical), the IOL API call wrappers,
the HTTP handlers (`bq_load/main.py`, `bq_writer_cloud_function/main.py`,
`value_getters/alphavantage.py`, `lecaps-scraper-job/main.py`), the
LECAP/BONCAP number parsing (`lecaps-scraper-job/etl/transformer.py`) and
the Alpha Vantage extractor/loader pipeline
(`data_pipelines/stocks/services/...`).

Network and cloud-SDK effects are modelled by explicit oracle arguments
describing the outcome of each external call; machine state (the module
level token cache) is passed explicitly.
-/

/-! ## Token cache model (cloud_run_job/iol.py and iol.py) -/

/-- The module-level `_cached_token_info` dictionary. `expires_at` stores a
datetime, modelled as an integer timestamp. -/
structure TokenCache where
  access_token : Option String
  refresh_token : Option String
  expires_at : Option Int
deriving DecidableEq

/-- A decoded token-endpoint JSON body.  A field that is `none` models a key
missing from the response (`token_data["..."]` raises KeyError, while
`token_data.get("expires_in", 0)` defaults). -/
structure TokenData where
  access_token : Option String
  refresh_token : Option String
  expires_in : Int
deriving DecidableEq

/-- Outcome of a `requests.post` to the token endpoint: either a
`RequestException` (network error or `raise_for_status`), or a decoded
JSON body. -/
inductive HttpResult where
  | err
  | ok (data : TokenData)
deriving DecidableEq

def EXPIRE_BUFFER : Int := 60

/-- Python truthiness of an optional string (`None` and `""` are falsy). -/
def optTruthy : Option String → Bool
  | none => false
  | some s => s != ""

/-- `datetime.now() < expires_at`, with a missing `expires_at` falsy. -/
def expiryFuture : Option Int → Int → Bool
  | some e, now => decide (now < e)
  | none, _ => false

/-- `_get_token_from_credentials`.  On success all three cache fields are
assigned.  The `logging.info("Bearer %s", token_data["access_token"])` line
runs before the first assignment, so a missing `access_token` key leaves the
cache untouched; a missing `refresh_token` key raises KeyError after the
`access_token` field has already been assigned. -/
def _get_token_from_credentials (cache : TokenCache) (now : Int)
    (resp : HttpResult) : Bool × TokenCache :=
  match resp with
  | .err => (false, cache)
  | .ok d =>
    let expires_at := now + (d.expires_in - EXPIRE_BUFFER)
    match d.access_token with
    | none => (false, cache)
    | some tok =>
      match d.refresh_token with
      | none => (false, { cache with access_token := some tok })
      | some rt => (true, ⟨some tok, some rt, some expires_at⟩)

/-- `_refresh_access_token`.  The refresh body may omit `refresh_token`
(`token_data.get("refresh_token", current_refresh_token)`); a missing
`access_token` key raises KeyError while evaluating the right-hand side of
the first assignment, leaving the cache untouched. -/
def _refresh_access_token (cache : TokenCache) (current_refresh_token : String)
    (now : Int) (resp : HttpResult) : Bool × TokenCache :=
  match resp with
  | .err => (false, cache)
  | .ok d =>
    let expires_at := now + (d.expires_in - EXPIRE_BUFFER)
    match d.access_token with
    | none => (false, cache)
    | some tok =>
      (true, ⟨some tok, some (d.refresh_token.getD current_refresh_token),
        some expires_at⟩)

/-- Tail of `get_valid_access_token`: authenticate with the configured
credentials and return the new access token on success, `None` on failure. -/
def credentialsFallback (cache : TokenCache) (now : Int)
    (credsResp : HttpResult) : Option String × TokenCache :=
  let r := _get_token_from_credentials cache now credsResp
  if r.1 then (r.2.access_token, r.2) else (none, r.2)

/-- `get_valid_access_token` (identical in cloud_run_job/iol.py and iol.py).
`refreshResp` and `credsResp` are the outcomes the token endpoint would
return for the refresh and the credentials request, respectively. -/
def get_valid_access_token (cache : TokenCache) (now : Int)
    (refreshResp credsResp : HttpResult) : Option String × TokenCache :=
  if optTruthy cache.access_token && expiryFuture cache.expires_at now then
    (cache.access_token, cache)
  else if optTruthy cache.refresh_token then
    let r := _refresh_access_token cache (cache.refresh_token.getD "") now
      refreshResp
    if r.1 then (r.2.access_token, r.2)
    else credentialsFallback ⟨none, none, none⟩ now credsResp
  else
    credentialsFallback cache now credsResp

/-! ## IOL API calls -/

/-- Outcome of a `requests.get` against an IOL API endpoint. -/
inductive ApiResult where
  | netErr
  | httpErr (status : Nat)
  | ok (body : String)
deriving DecidableEq

/-- `_make_authenticated_api_call` (cloud_run_job/iol.py).  Returns the body,
the final cache, and the number of endpoint requests that were issued. -/
def _make_authenticated_api_call (cache : TokenCache) (now : Int)
    (r1 g1 : HttpResult) (a1 : ApiResult) (r2 g2 : HttpResult)
    (a2 : ApiResult) : Option String × TokenCache × Nat :=
  let t1 := get_valid_access_token cache now r1 g1
  if !optTruthy t1.1 then (none, t1.2, 0)
  else
    match a1 with
    | .ok body => (some body, t1.2, 1)
    | .netErr => (none, t1.2, 1)
    | .httpErr s =>
      if s == 401 then
        let c2 : TokenCache := ⟨none, (t1.2).refresh_token, none⟩
        let t2 := get_valid_access_token c2 now r2 g2
        if !optTruthy t2.1 then (none, t2.2, 1)
        else
          match a2 with
          | .ok body => (some body, t2.2, 2)
          | _ => (none, t2.2, 2)
      else (none, t1.2, 1)

/-- `list_fci_data` (iol.py).  Returns the body, the cache after the call
(a 401 invalidates `access_token`/`expires_at`), and the number of endpoint
requests issued. -/
def list_fci_data (access_token : Option String) (cache : TokenCache)
    (a : ApiResult) : Option String × TokenCache × Nat :=
  if !optTruthy access_token then (none, cache, 0)
  else
    match a with
    | .ok body => (some body, cache, 1)
    | .netErr => (none, cache, 1)
    | .httpErr s =>
      if s == 401 then
        (none, { cache with access_token := none, expires_at := none }, 1)
      else (none, cache, 1)

/-- `iol_api_handler` (iol.py).  Returns the HTTP status, the final cache,
and the number of FCI endpoint requests issued. -/
def iol_api_handler (credsSet : Bool) (cache : TokenCache) (now : Int)
    (r1 g1 : HttpResult) (a1 : ApiResult) (r2 g2 : HttpResult)
    (a2 : ApiResult) : Nat × TokenCache × Nat :=
  if !credsSet then (500, cache, 0)
  else
    let t1 := get_valid_access_token cache now r1 g1
    if !optTruthy t1.1 then (500, t1.2, 0)
    else
      let f1 := list_fci_data t1.1 t1.2 a1
      match f1.1 with
      | some _ => (200, f1.2.1, f1.2.2)
      | none =>
        let t2 := get_valid_access_token f1.2.1 now r2 g2
        if !optTruthy t2.1 then (500, t2.2, f1.2.2)
        else
          let f2 := list_fci_data t2.1 t2.2 a2
          match f2.1 with
          | some _ => (200, f2.2.1, f1.2.2 + f2.2.2)
          | none => (500, f2.2.1, f1.2.2 + f2.2.2)

/-! ## Python string.replace -/

/-- Fuel-indexed scanner for Python's `str.replace` with a nonempty pattern
`p :: ps`: scan left to right, replacing each (non-overlapping) occurrence.
The fuel only bounds the recursion; with `fuel ≥ l.length` it never runs
out. -/
def replaceGo (p : Char) (ps rep : List Char) : Nat → List Char → List Char
  | _, [] => []
  | 0, _ :: _ => []
  | fuel + 1, c :: rest =>
    if (p :: ps).isPrefixOf (c :: rest) then
      rep ++ replaceGo p ps rep fuel (rest.drop ps.length)
    else
      c :: replaceGo p ps rep fuel rest

/-- Python's `str.replace` scan with a nonempty pattern `p :: ps`. -/
def replaceAllL (p : Char) (ps rep : List Char) (l : List Char) :
    List Char :=
  replaceGo p ps rep l.length l

/-- Python `s.replace(pat, rep)`.  All the replacements performed by the
repository use a nonempty literal pattern; the empty-pattern case (never
exercised) is modelled as the identity. -/
def pyReplace (s pat rep : String) : String :=
  match pat.data with
  | [] => s
  | p :: ps => ⟨replaceAllL p ps rep.data s.data⟩

/-- Bool test for an occurrence of `pat` as a contiguous substring. -/
def hasSub (pat : List Char) : List Char → Bool
  | [] => pat.isEmpty
  | c :: rest => pat.isPrefixOf (c :: rest) || hasSub pat rest

/-! ## Decimal parsing (lecaps-scraper-job/etl/transformer.py) -/

/-- Numeric value of a digit string (most significant first). -/
def decimalDigitsVal (l : List Char) : Nat :=
  l.foldl (fun n c => 10 * n + (c.toNat - 48)) 0

/-- `decimal.Decimal(t)` on the shapes reachable from `parse_num`: an
optional integer part, an optional fractional part separated by a single
dot.  Signs and exponents (never produced by `parse_num`'s inputs here) are
modelled as parse failures. -/
def decimalOfString (l : List Char) : Option Rat :=
  let intPart := l.takeWhile (fun c => c != '.')
  match l.dropWhile (fun c => c != '.') with
  | [] =>
    if intPart ≠ [] ∧ intPart.all Char.isDigit then
      some (decimalDigitsVal intPart)
    else none
  | _ :: frac =>
    if frac.all (fun c => c != '.') ∧ (intPart ≠ [] ∨ frac ≠ []) ∧
        intPart.all Char.isDigit ∧ frac.all Char.isDigit then
      some ((decimalDigitsVal intPart : Rat) +
        (decimalDigitsVal frac : Rat) / (10 : Rat) ^ frac.length)
    else none

/-- `parse_num`: drop thousands separators `"."`, use `","` as the decimal
separator, and convert. -/
def parse_num (s : String) : Option Rat :=
  decimalOfString (pyReplace (pyReplace s "." "") "," ".").data

/-- The `price_per_100_nominal_value` field computed by `transform_data`:
`parse_num(row.get("precio_vn_100").replace(",", "."))`. -/
def price_per_100_nominal_value (precio_vn_100 : String) : Option Rat :=
  parse_num (pyReplace precio_vn_100 "," ".")

/-- The `annual_percentage_rate` field computed by `transform_data`:
`parse_num(row.get("tna").replace("%", ""))`. -/
def annual_percentage_rate (tna : String) : Option Rat :=
  parse_num (pyReplace tna "%" "")

/-! ## datetime.strptime with format "%Y-%m-%dT%H:%M:%S" (bq_load/main.py) -/

/-- `%Y`: exactly four digits (more or fewer make the match fail, since the
following character must be a literal `-`). -/
def parseYear (l : List Char) : Option (Nat × List Char) :=
  let ds := l.takeWhile Char.isDigit
  if ds.length = 4 then some (decimalDigitsVal ds, l.drop 4) else none

/-- A one- or two-digit numeric field.  Together with the range checks
below this reproduces the verdict of CPython's `_strptime` regexes for
`%m`, `%d`, `%H`, `%M`, `%S` followed by a non-digit separator. -/
def parseNum2 (l : List Char) : Option (Nat × List Char) :=
  let ds := l.takeWhile Char.isDigit
  if ds.length = 0 ∨ ds.length > 2 then none
  else some (decimalDigitsVal ds, l.drop ds.length)

def expectChar (c : Char) : List Char → Option (List Char)
  | [] => none
  | x :: rest => if x = c then some rest else none

def isLeapYear (y : Nat) : Bool :=
  y % 4 == 0 && (y % 100 != 0 || y % 400 == 0)

def daysInMonth (y m : Nat) : Nat :=
  if m == 2 then (if isLeapYear y then 29 else 28)
  else if m == 4 || m == 6 || m == 9 || m == 11 then 30
  else 31

def parseDatetimeFields (l : List Char) :
    Option (Nat × Nat × Nat × Nat × Nat × Nat) := do
  let (y, r1) ← parseYear l
  let r2 ← expectChar '-' r1
  let (mo, r3) ← parseNum2 r2
  let r4 ← expectChar '-' r3
  let (d, r5) ← parseNum2 r4
  let r6 ← expectChar 'T' r5
  let (h, r7) ← parseNum2 r6
  let r8 ← expectChar ':' r7
  let (mi, r9) ← parseNum2 r8
  let r10 ← expectChar ':' r9
  let (sec, r11) ← parseNum2 r10
  if r11 = [] then some (y, mo, d, h, mi, sec) else none

/-- `datetime.strptime(s, "%Y-%m-%dT%H:%M:%S")` succeeds (the field values
must also form a valid `datetime`). -/
def strptime_ok (s : String) : Bool :=
  match parseDatetimeFields s.data with
  | none => false
  | some (y, mo, d, h, mi, sec) =>
    decide (1 ≤ y ∧ 1 ≤ mo ∧ mo ≤ 12 ∧ 1 ≤ d ∧ d ≤ daysInMonth y mo ∧
      h ≤ 23 ∧ mi ≤ 59 ∧ sec ≤ 59)

/-! ## bq_load_data (bq_load/main.py) -/

/-- Outcome of the BigQuery block of `bq_load_data`. -/
inductive BqOutcome where
  | clientInitError
  | loadError
  | okLoad
deriving DecidableEq

/-- Result of the per-symbol validation loop: an early `400` return for a
malformed symbol or a bad date, or completion carrying the `fake_file`
binding (which stays unbound when the symbol list is empty). -/
inductive LoopResult where
  | badLength (s : List String)
  | badDate (s : List String)
  | done (fake_file : Option (List String))
deriving DecidableEq

def symbolsLoop : List (List String) → Option (List String) → LoopResult
  | [], fake => .done fake
  | s :: rest, _ =>
    if s.length ≠ 4 then .badLength s
    else if !strptime_ok (s.getD 3 "") then .badDate s
    else symbolsLoop rest (some s)

/-- `bq_load_data`.  `data` is the decoded JSON payload: `none` for a falsy
body, `some none` for a truthy body without a `"symbols"` key, and
`some (some syms)` otherwise.  Returns the HTTP status and whether a
BigQuery load job was started. -/
def bq_load_data (method content_type : String) (envOk : Bool)
    (data : Option (Option (List (List String)))) (bq : BqOutcome) :
    Nat × Bool :=
  if method ≠ "POST" ∨ content_type ≠ "application/json" then (405, false)
  else if !envOk then (500, false)
  else
    match data with
    | none => (400, false)
    | some none => (400, false)
    | some (some symbols) =>
      match symbolsLoop symbols none with
      | .badLength _ => (400, false)
      | .badDate _ => (400, false)
      | .done none => (500, false)
      | .done (some _) =>
        match bq with
        | .clientInitError => (500, false)
        | .loadError => (500, true)
        | .okLoad => (200, true)

/-- A symbol is rejected by the validation loop: it does not have exactly 4
elements, or its fourth element does not parse as `%Y-%m-%dT%H:%M:%S`. -/
def badSymbol (s : List String) : Prop :=
  s.length ≠ 4 ∨ strptime_ok (s.getD 3 "") = false

/-! ## bq_storage_write_batch (bq_writer_cloud_function/main.py) -/

/-- The record serialized for insertion by `bq_storage_write_batch`. -/
structure DataRecord where
  symbol : String
  value : Int
  datetime : String
  market : String
deriving DecidableEq

/-- The `processed_record` dictionary built by `bq_storage_write_batch`:
every field except `value` is a literal, and `value` is
`random.randint(1, 1000)`. -/
def processed_record (random_integer : Int) : DataRecord :=
  ⟨"META", random_integer, "2025-06-08T16:42:31.190280", "US"⟩

/-- `bq_storage_write_batch`.  `body` is the decoded JSON request body
(a list of records, modelled opaquely); it is never read.  Returns the HTTP
status and the list of serialized rows. -/
def bq_storage_write_batch (clientOk : Bool) (method : String) (envOk : Bool)
    (body : List (String × String)) (random_integer : Int)
    (streamOk : Bool) : Nat × List DataRecord :=
  if !clientOk then (500, [])
  else if method ≠ "POST" then (405, [])
  else if !envOk then (500, [])
  else if streamOk then (200, [processed_record random_integer])
  else (500, [processed_record random_integer])

/-! ## HTTP handler shapes (value_getters/alphavantage.py,
lecaps-scraper-job/main.py) -/

/-- What a Python handler hands back to the framework: a JSON response with
a status code, a bare `None` (a plain `return` or falling off the end), or
an exception propagating out of the handler. -/
inductive HandlerResp where
  | jsonResp (body : Option String) (status : Nat)
  | bareNone
  | raisedExn
deriving DecidableEq

/-- `_get_symbol_latest` (value_getters/alphavantage.py): an empty symbol is
rejected up front; otherwise the outcome of the Alpha Vantage call is given
by the oracle `fetch` (`none` for an error or missing data). -/
def _get_symbol_latest (symbol : String) (fetch : String → Option String) :
    Option String :=
  if symbol == "" then none else fetch symbol

/-- A fetch oracle that always fails. -/
def noFetch : String → Option String := fun _ => none

/-- `alpha_vantage_handler` (value_getters/alphavantage.py).  With the
environment unset it executes a bare `return`; a method other than POST/GET
falls off the end of the function; a POST whose `symbols` list is empty
leaves `symbol_data` unbound and raises `NameError` at `jsonify(symbol_data)`.
`getSymbolArg` is `request.args.get("symbol")`. -/
def alpha_vantage_handler (envSet : Bool) (method : String)
    (postSymbols : List String) (getSymbolArg : Option String)
    (fetch : String → Option String) : HandlerResp :=
  if !envSet then .bareNone
  else if method == "POST" then
    match (postSymbols.map (fun s => _get_symbol_latest s fetch)).getLast? with
    | none => .raisedExn
    | some v => .jsonResp v 200
  else if method == "GET" then
    .jsonResp (_get_symbol_latest (getSymbolArg.getD "") fetch) 200
  else .bareNone

/-- Outcome of `main(dry_run)` in lecaps-scraper-job/main.py: one of the
four guarded step failures (each returning an `({"error": msg}, 500)`
tuple), an unexpected exception, or the parsed report data. -/
inductive MainOutcome where
  | stepError (msg : String)
  | raised
  | okData (data : String)
deriving DecidableEq

/-- `get_report_data` (lecaps-scraper-job/main.py, the `/` route):
controlled errors from `main` are forwarded with their status, any
unhandled exception is caught and mapped to a generic JSON 500. -/
def get_report_data (o : MainOutcome) : HandlerResp :=
  match o with
  | .stepError msg => .jsonResp (some ("error: " ++ msg)) 500
  | .raised =>
    .jsonResp (some "An unexpected internal server error occurred.") 500
  | .okData d => .jsonResp (some d) 200

/-! ## Alpha Vantage extractor and loader
(data_pipelines/stocks/services) -/

def DIRECTORY : String := "alphavantage"

structure SuccessEntry where
  symbol : String
  country : String
  exchange : String
  gcs_uri : String
deriving DecidableEq

structure FailedEntry where
  symbol : String
  country : String
  exchange : String
deriving DecidableEq

structure RunResults where
  success : List SuccessEntry
  failed : List FailedEntry
  total : Nat
deriving DecidableEq

structure Manifest where
  run_date : String
  mode : String
  extracted_at : String
  results : RunResults
deriving DecidableEq

/-- Outcome of the body of `extract_symbol` for one symbol. -/
inductive ExtractOutcome where
  | fetchError
  | emptyData
  | gcsNotFound
  | gcsForbidden
  | otherError
  | okFetch
deriving DecidableEq

/-- The GCS object path written by `extract_symbol`:
`raw/{MODE}/{DIRECTORY}/{country}_{exchange}_{symbol}/{run_date}.csv`. -/
def extractBlobPath (mode country exchange symbol run_date : String) :
    String :=
  "raw/" ++ mode ++ "/" ++ DIRECTORY ++ "/" ++ country ++ "_" ++ exchange ++
    "_" ++ symbol ++ "/" ++ run_date ++ ".csv"

/-- `extract_symbol`: on success returns `gs://{GCS_BUCKET}/{blob_path}`,
on any failure (API error, empty data, GCS error) returns `None`. -/
def extract_symbol (mode bucket run_date symbol country exchange : String)
    (o : ExtractOutcome) : Option String :=
  match o with
  | .okFetch =>
    some ("gs://" ++ bucket ++ "/" ++
      extractBlobPath mode country exchange symbol run_date)
  | _ => none

/-- The `for` loop of `AlphaVantageExtractor.run`, appending each symbol to
`results["success"]` or `results["failed"]`. -/
def runLoop (ext : String × String × String → Option String) :
    List (String × String × String) → RunResults → RunResults
  | [], acc => acc
  | t :: rest, acc =>
    match ext t with
    | some uri =>
      runLoop ext rest
        ⟨acc.success ++ [⟨t.1, t.2.1, t.2.2, uri⟩], acc.failed, acc.total⟩
    | none =>
      runLoop ext rest
        ⟨acc.success, acc.failed ++ [⟨t.1, t.2.1, t.2.2⟩], acc.total⟩

/-- `AlphaVantageExtractor.run`: classify every symbol, then return exit
code `0 if results["success"] else 1`. -/
def extractorRun (mode bucket run_date : String)
    (symbols : List (String × String × String))
    (oracle : String × String × String → ExtractOutcome) :
    RunResults × Nat :=
  let ext := fun t : String × String × String =>
    extract_symbol mode bucket run_date t.1 t.2.1 t.2.2 (oracle t)
  let results := runLoop ext symbols ⟨[], [], symbols.length⟩
  (results, if results.success.isEmpty then 1 else 0)

/-- `AlphaVantageExtractor._write_manifest`: the manifest object and the
path `manifests/{MODE}/{DIRECTORY}/{run_date}.json` it is written to. -/
def _write_manifest (mode run_date extracted_at : String)
    (results : RunResults) : String × Manifest :=
  ("manifests/" ++ mode ++ "/" ++ DIRECTORY ++ "/" ++ run_date ++ ".json",
   ⟨run_date, mode, extracted_at, results⟩)

/-- Outcome of the loader's manifest download. -/
inductive ManifestFetch where
  | notFound
  | otherError
  | found (m : Manifest)
deriving DecidableEq

/-- The manifest path read by `AlphaVantageLoader.get_files_to_load`. -/
def loader_manifest_path (mode run_date : String) : String :=
  "manifests/" ++ mode ++ "/" ++ DIRECTORY ++ "/" ++ run_date ++ ".json"

/-- `AlphaVantageLoader.get_files_to_load`: the `gcs_uri` of every entry of
`manifest_data["results"]["success"]`, in order; `[]` on any error. -/
def get_files_to_load (fetch : ManifestFetch) : List String :=
  match fetch with
  | .found m => m.results.success.map (fun e => e.gcs_uri)
  | _ => []

/-- The blob path computed by `AlphaVantageLoader._move_to_processed`:
`gcs_uri.replace(f"gs://{GCS_BUCKET}/", "")`. -/
def loaderBlobPath (bucket gcs_uri : String) : String :=
  pyReplace gcs_uri ("gs://" ++ bucket ++ "/") ""

/-- The destination path computed by `AlphaVantageLoader._move_to_processed`:
`blob_path.replace("raw/", "processed/")`. -/
def moveDestPath (bucket gcs_uri : String) : String :=
  pyReplace (loaderBlobPath bucket gcs_uri) "raw/" "processed/"

/-! ## Helper lemmas -/

theorem replaceGo_fuel (p : Char) (ps rep : List Char) :
    ∀ (fuel fuel' : Nat) (l : List Char), l.length ≤ fuel →
      l.length ≤ fuel' →
      replaceGo p ps rep fuel l = replaceGo p ps rep fuel' l := by
  intro fuel
  induction fuel with
  | zero =>
    intro fuel' l h h'
    cases l with
    | nil => cases fuel' <;> rfl
    | cons c rest => simp at h
  | succ n ih =>
    intro fuel' l h h'
    cases l with
    | nil => cases fuel' <;> rfl
    | cons c rest =>
      cases fuel' with
      | zero => simp at h'
      | succ m =>
        rw [replaceGo, replaceGo]
        by_cases hc : (p :: ps).isPrefixOf (c :: rest) = true
        · rw [if_pos hc, if_pos hc,
            ih m (rest.drop ps.length)
              (by have := List.length_drop ps.length rest
                  simp at h ⊢
                  omega)
              (by have := List.length_drop ps.length rest
                  simp at h' ⊢
                  omega)]
        · rw [if_neg hc, if_neg hc,
            ih m rest (by simp at h; omega) (by simp at h'; omega)]

theorem replaceAllL_nil (p : Char) (ps rep : List Char) :
    replaceAllL p ps rep [] = [] := rfl

theorem replaceAllL_cons (p : Char) (ps rep : List Char) (c : Char)
    (rest : List Char) :
    replaceAllL p ps rep (c :: rest) =
      if (p :: ps).isPrefixOf (c :: rest) then
        rep ++ replaceAllL p ps rep (rest.drop ps.length)
      else
        c :: replaceAllL p ps rep rest := by
  have h1 : replaceAllL p ps rep (c :: rest) =
      if (p :: ps).isPrefixOf (c :: rest) then
        rep ++ replaceGo p ps rep rest.length (rest.drop ps.length)
      else
        c :: replaceGo p ps rep rest.length rest := rfl
  rw [h1]
  by_cases hc : (p :: ps).isPrefixOf (c :: rest) = true
  · rw [if_pos hc, if_pos hc]
    unfold replaceAllL
    rw [replaceGo_fuel p ps rep rest.length (rest.drop ps.length).length
      (rest.drop ps.length)
      (by have := List.length_drop ps.length rest; omega) (le_refl _)]
  · rw [if_neg hc, if_neg hc]
    rfl

theorem isPrefixOf_append_self (l₁ l₂ : List Char) :
    l₁.isPrefixOf (l₁ ++ l₂) = true := by
  induction l₁ with
  | nil => simp [List.isPrefixOf]
  | cons a as ih => simpa [List.isPrefixOf] using ih

theorem replaceAllL_pat_append (p : Char) (ps rep l : List Char) :
    replaceAllL p ps rep ((p :: ps) ++ l) = rep ++ replaceAllL p ps rep l := by
  have hpre : (p :: ps).isPrefixOf (p :: (ps ++ l)) = true := by
    simpa [List.isPrefixOf] using isPrefixOf_append_self ps l
  rw [List.cons_append, replaceAllL_cons, if_pos hpre, List.drop_left]

theorem replaceAllL_of_hasSub_false (p : Char) (ps rep : List Char) :
    ∀ l, hasSub (p :: ps) l = false → replaceAllL p ps rep l = l := by
  intro l
  induction l with
  | nil => intro _; exact replaceAllL_nil p ps rep
  | cons c rest ih =>
    intro h
    rw [hasSub] at h
    rw [Bool.or_eq_false_iff] at h
    rw [replaceAllL_cons, if_neg (by simp [h.1]), ih h.2]

theorem replaceAllL_single_map (p r : Char) :
    ∀ l, replaceAllL p [] [r] l = l.map fun c => if c = p then r else c := by
  intro l
  induction l with
  | nil => exact replaceAllL_nil p [] [r]
  | cons c rest ih =>
    rw [replaceAllL_cons]
    by_cases h : c = p
    · subst h
      simp [List.isPrefixOf, ih]
    · have hpre : ([p].isPrefixOf (c :: rest)) = false := by
        simp [List.isPrefixOf]
        exact fun hc => absurd hc.symm h
      simp [hpre, ih, h]

theorem replaceAllL_single_del (p : Char) :
    ∀ l, replaceAllL p [] [] l = l.filter fun c => c != p := by
  intro l
  induction l with
  | nil => exact replaceAllL_nil p [] []
  | cons c rest ih =>
    rw [replaceAllL_cons]
    by_cases h : c = p
    · subst h
      simp [List.isPrefixOf, ih, List.filter_cons]
    · have hpre : ([p].isPrefixOf (c :: rest)) = false := by
        simp [List.isPrefixOf]
        exact fun hc => absurd hc.symm h
      have hbne : (c != p) = true := by simp [h]
      simp [hpre, ih, List.filter_cons, hbne]

theorem digits_all_ne {ch : Char} (hch : ch.isDigit = false) :
    ∀ l : List Char, l.all Char.isDigit = true →
      l.all (fun c => c != ch) = true := by
  intro l h
  rw [List.all_eq_true] at h ⊢
  intro c hc
  have hd := h c hc
  simp only [bne_iff_ne, ne_eq, decide_eq_true_eq]
  intro e
  subst e
  simp [hd] at hch

theorem map_if_preserves_digits (ch r : Char) (hch : ch.isDigit = false) :
    ∀ l : List Char, l.all Char.isDigit = true →
      (l.map fun c => if c = ch then r else c) = l := by
  intro l
  induction l with
  | nil => intro _; rfl
  | cons c rest ih =>
    intro h
    rw [List.all_cons, Bool.and_eq_true] at h
    have hne : ¬c = ch := by
      intro e
      subst e
      simp [h.1] at hch
    simp [hne, ih h.2]

theorem filter_preserves (q : Char → Bool)
    (hq : ∀ c : Char, c.isDigit = true → q c = true) :
    ∀ l : List Char, l.all Char.isDigit = true → l.filter q = l := by
  intro l
  induction l with
  | nil => intro _; rfl
  | cons c rest ih =>
    intro h
    rw [List.all_cons, Bool.and_eq_true] at h
    rw [List.filter_cons, if_pos (hq c h.1), ih h.2]

theorem takeWhile_append_all (q : Char → Bool) :
    ∀ l₁ l₂ : List Char, l₁.all q = true →
      (l₁ ++ l₂).takeWhile q = l₁ ++ l₂.takeWhile q := by
  intro l₁
  induction l₁ with
  | nil => intro l₂ _; rfl
  | cons c rest ih =>
    intro l₂ h
    rw [List.all_cons, Bool.and_eq_true] at h
    rw [List.cons_append, List.takeWhile_cons, if_pos h.1, ih l₂ h.2]
    rfl

theorem dropWhile_append_all (q : Char → Bool) :
    ∀ l₁ l₂ : List Char, l₁.all q = true →
      (l₁ ++ l₂).dropWhile q = l₂.dropWhile q := by
  intro l₁
  induction l₁ with
  | nil => intro l₂ _; rfl
  | cons c rest ih =>
    intro l₂ h
    rw [List.all_cons, Bool.and_eq_true] at h
    rw [List.cons_append, List.dropWhile_cons, if_pos h.1, ih l₂ h.2]

theorem takeWhile_all_eq_self (q : Char → Bool) (l : List Char)
    (h : l.all q = true) : l.takeWhile q = l := by
  have := takeWhile_append_all q l [] h
  simpa using this

theorem dropWhile_all_eq_nil (q : Char → Bool) (l : List Char)
    (h : l.all q = true) : l.dropWhile q = [] := by
  have := dropWhile_append_all q l [] h
  simpa using this

theorem decimalOfString_digits (l : List Char)
    (h : l.all Char.isDigit = true) (h0 : l ≠ []) :
    decimalOfString l = some ((decimalDigitsVal l : Rat)) := by
  have hq : l.all (fun c => c != '.') = true :=
    digits_all_ne (by decide) l h
  unfold decimalOfString
  rw [dropWhile_all_eq_nil _ l hq, takeWhile_all_eq_self _ l hq]
  simp [h, h0]

theorem decimalOfString_point (a b : List Char)
    (ha : a.all Char.isDigit = true) (hb : b.all Char.isDigit = true)
    (hab : a ≠ [] ∨ b ≠ []) :
    decimalOfString (a ++ '.' :: b) =
      some ((decimalDigitsVal a : Rat) +
        (decimalDigitsVal b : Rat) / (10 : Rat) ^ b.length) := by
  have hqa : a.all (fun c => c != '.') = true :=
    digits_all_ne (by decide) a ha
  have hqb : b.all (fun c => c != '.') = true :=
    digits_all_ne (by decide) b hb
  unfold decimalOfString
  rw [takeWhile_append_all _ a ('.' :: b) hqa,
    dropWhile_append_all _ a ('.' :: b) hqa]
  simp [List.takeWhile_cons, List.dropWhile_cons, hqb, ha, hb, hab]

theorem pyReplace_comma_dot (s : String) :
    pyReplace s "," "." = ⟨s.data.map fun c => if c = ',' then '.' else c⟩ := by
  have h : pyReplace s "," "." = ⟨replaceAllL ',' [] ['.'] s.data⟩ := rfl
  rw [h, replaceAllL_single_map]

theorem pyReplace_del_dot (s : String) :
    pyReplace s "." "" = ⟨s.data.filter fun c => c != '.'⟩ := by
  have h : pyReplace s "." "" = ⟨replaceAllL '.' [] [] s.data⟩ := rfl
  rw [h, replaceAllL_single_del]

theorem pyReplace_del_pct (s : String) :
    pyReplace s "%" "" = ⟨s.data.filter fun c => c != '%'⟩ := by
  have h : pyReplace s "%" "" = ⟨replaceAllL '%' [] [] s.data⟩ := rfl
  rw [h, replaceAllL_single_del]

theorem data_mk (l : List Char) : (String.mk l).data = l := rfl

theorem digit_ne_dot : ∀ c : Char, c.isDigit = true → (c != '.') = true := by
  intro c hc
  simp only [bne_iff_ne, ne_eq]
  intro e
  subst e
  exact absurd hc (by decide)

theorem digit_ne_pct : ∀ c : Char, c.isDigit = true → (c != '%') = true := by
  intro c hc
  simp only [bne_iff_ne, ne_eq]
  intro e
  subst e
  exact absurd hc (by decide)

/-- C6: with a decimal-comma input `a,b`, the `price_per_100_nominal_value`
field of `transform_data` stores the concatenation of the digits, while a
rate field such as `annual_percentage_rate` (which applies `parse_num`
directly) preserves the decimal value. -/
theorem c6_price_concatenates_digits (a b : String)
    (ha : a.data.all Char.isDigit = true) (hb : b.data.all Char.isDigit = true)
    (ha0 : a.data ≠ []) (hb0 : b.data ≠ []) :
    price_per_100_nominal_value (a ++ "," ++ b) =
      some ((decimalDigitsVal (a.data ++ b.data) : Rat)) ∧
    annual_percentage_rate (a ++ "," ++ b) =
      some ((decimalDigitsVal a.data : Rat) +
        (decimalDigitsVal b.data : Rat) / (10 : Rat) ^ b.data.length) := by
  have hdata : (a ++ "," ++ b).data = a.data ++ ',' :: b.data := by
    rw [String.data_append, String.data_append]
    simp
  have habd : (a.data ++ b.data).all Char.isDigit = true := by
    rw [List.all_append]
    simp [ha, hb]
  have hab0 : a.data ++ b.data ≠ [] := by
    intro h
    exact ha0 (List.append_eq_nil.mp h).1
  have e1 : pyReplace (a ++ "," ++ b) "," "." =
      String.mk (a.data ++ '.' :: b.data) := by
    rw [pyReplace_comma_dot, hdata, List.map_append,
      map_if_preserves_digits ',' '.' (by decide) a.data ha, List.map_cons,
      map_if_preserves_digits ',' '.' (by decide) b.data hb]
    simp
  have e2 : pyReplace (String.mk (a.data ++ '.' :: b.data)) "." "" =
      String.mk (a.data ++ b.data) := by
    rw [pyReplace_del_dot, data_mk, List.filter_append, List.filter_cons]
    simp only [bne_self_eq_false, Bool.false_eq_true, if_false]
    rw [filter_preserves _ digit_ne_dot a.data ha,
      filter_preserves _ digit_ne_dot b.data hb]
  have e3 : pyReplace (String.mk (a.data ++ b.data)) "," "." =
      String.mk (a.data ++ b.data) := by
    rw [pyReplace_comma_dot, data_mk, List.map_append,
      map_if_preserves_digits ',' '.' (by decide) a.data ha,
      map_if_preserves_digits ',' '.' (by decide) b.data hb]
  have f1 : pyReplace (a ++ "," ++ b) "%" "" =
      String.mk (a.data ++ ',' :: b.data) := by
    rw [pyReplace_del_pct, hdata, List.filter_append, List.filter_cons]
    simp only [show ((',' : Char) != '%') = true from by decide, if_true]
    rw [filter_preserves _ digit_ne_pct a.data ha,
      filter_preserves _ digit_ne_pct b.data hb]
  have f2 : pyReplace (String.mk (a.data ++ ',' :: b.data)) "." "" =
      String.mk (a.data ++ ',' :: b.data) := by
    rw [pyReplace_del_dot, data_mk, List.filter_append, List.filter_cons]
    simp only [show ((',' : Char) != '.') = true from by decide, if_true]
    rw [filter_preserves _ digit_ne_dot a.data ha,
      filter_preserves _ digit_ne_dot b.data hb]
  have f3 : pyReplace (String.mk (a.data ++ ',' :: b.data)) "," "." =
      String.mk (a.data ++ '.' :: b.data) := by
    rw [pyReplace_comma_dot, data_mk, List.map_append,
      map_if_preserves_digits ',' '.' (by decide) a.data ha, List.map_cons,
      map_if_preserves_digits ',' '.' (by decide) b.data hb]
    simp
  constructor
  · unfold price_per_100_nominal_value parse_num
    rw [e1, e2, e3, data_mk]
    exact decimalOfString_digits _ habd hab0
  · unfold annual_percentage_rate parse_num
    rw [f1, f2, f3, data_mk]
    exact decimalOfString_point a.data b.data ha hb (Or.inl ha0)

/-- C6 witness: the IAMC value `"103,25"` is stored as the integer `10325`
by the price field, while the rate fields store `103.25`. -/
theorem c6_witness :
    price_per_100_nominal_value "103,25" = some ((10325 : Rat)) ∧
    annual_percentage_rate "103,25" = some ((413 : Rat) / 4) := by
  have h := c6_price_concatenates_digits "103" "25" (by decide) (by decide)
    (by decide) (by decide)
  have d3 : decimalDigitsVal ("103".data ++ "25".data) = 10325 := by decide
  have d1 : decimalDigitsVal "103".data = 103 := by decide
  have d2 : decimalDigitsVal "25".data = 25 := by decide
  have dl : "25".data.length = 2 := by decide
  refine ⟨h.1.trans ?_, h.2.trans ?_⟩
  · rw [d3]
    norm_num
  · rw [d1, d2, dl]
    norm_num

theorem creds_success_access (c : TokenCache) (now : Int) (g : HttpResult) :
    (_get_token_from_credentials c now g).1 = true →
    ∃ tok : String,
      (_get_token_from_credentials c now g).2.access_token = some tok := by
  cases g with
  | err => intro h; simp [_get_token_from_credentials] at h
  | ok d =>
    cases hd : d.access_token with
    | none => intro h; simp [_get_token_from_credentials, hd] at h
    | some tok =>
      cases hr : d.refresh_token with
      | none => intro h; simp [_get_token_from_credentials, hd, hr] at h
      | some rt =>
        intro _
        exact ⟨tok, by simp [_get_token_from_credentials, hd, hr]⟩

theorem refresh_success_access (c : TokenCache) (rt : String) (now : Int)
    (r : HttpResult) :
    (_refresh_access_token c rt now r).1 = true →
    ∃ tok : String,
      (_refresh_access_token c rt now r).2.access_token = some tok := by
  cases r with
  | err => intro h; simp [_refresh_access_token] at h
  | ok d =>
    cases hd : d.access_token with
    | none => intro h; simp [_refresh_access_token, hd] at h
    | some tok =>
      intro _
      exact ⟨tok, by simp [_refresh_access_token, hd]⟩

theorem optTruthy_ne_none {o : Option String} (h : optTruthy o = true) :
    o ≠ none := by
  cases o with
  | none => simp [optTruthy] at h
  | some s => simp

theorem credentialsFallback_none_iff (c : TokenCache) (now : Int)
    (g : HttpResult) :
    (credentialsFallback c now g).1 = none ↔
      (_get_token_from_credentials c now g).1 = false := by
  unfold credentialsFallback
  cases hg : (_get_token_from_credentials c now g).1 with
  | false => simp [hg]
  | true =>
    obtain ⟨tok, htok⟩ := creds_success_access c now g hg
    simp [hg, htok]

/-- C1: `get_valid_access_token` follows exactly the three sequential
branches of the claim: (1) a truthy cached access token with an unexpired
expiry is returned with the cache unchanged; (2) otherwise, with a cached
refresh token, a successful refresh returns the refreshed access token and
a failed refresh clears all three cache fields before falling through;
(3) otherwise credentials authentication is attempted on the (possibly
cleared) cache, and `None` is returned exactly when every applicable branch
failed. -/
theorem c1_get_valid_access_token_branches (cache : TokenCache) (now : Int)
    (refreshResp credsResp : HttpResult) :
    ((optTruthy cache.access_token && expiryFuture cache.expires_at now) =
        true →
      get_valid_access_token cache now refreshResp credsResp =
        (cache.access_token, cache)) ∧
    ((optTruthy cache.access_token && expiryFuture cache.expires_at now) =
        false →
      optTruthy cache.refresh_token = true →
      (((_refresh_access_token cache (cache.refresh_token.getD "") now
            refreshResp).1 = true →
        get_valid_access_token cache now refreshResp credsResp =
          ((_refresh_access_token cache (cache.refresh_token.getD "") now
              refreshResp).2.access_token,
           (_refresh_access_token cache (cache.refresh_token.getD "") now
              refreshResp).2)) ∧
       ((_refresh_access_token cache (cache.refresh_token.getD "") now
            refreshResp).1 = false →
        get_valid_access_token cache now refreshResp credsResp =
          credentialsFallback ⟨none, none, none⟩ now credsResp))) ∧
    ((optTruthy cache.access_token && expiryFuture cache.expires_at now) =
        false →
      optTruthy cache.refresh_token = false →
      get_valid_access_token cache now refreshResp credsResp =
        credentialsFallback cache now credsResp) ∧
    (∀ c : TokenCache, (credentialsFallback c now credsResp).1 = none ↔
      (_get_token_from_credentials c now credsResp).1 = false) ∧
    ((get_valid_access_token cache now refreshResp credsResp).1 = none ↔
      ((optTruthy cache.access_token && expiryFuture cache.expires_at now) =
          false ∧
       ((optTruthy cache.refresh_token = true ∧
         (_refresh_access_token cache (cache.refresh_token.getD "") now
            refreshResp).1 = false ∧
         (_get_token_from_credentials ⟨none, none, none⟩ now
            credsResp).1 = false) ∨
        (optTruthy cache.refresh_token = false ∧
         (_get_token_from_credentials cache now credsResp).1 = false)))) := by
  refine ⟨?_, ?_, ?_, fun c => credentialsFallback_none_iff c now credsResp,
    ?_⟩
  · intro h1
    simp [get_valid_access_token, h1]
  · intro h1 h2
    constructor
    · intro hr
      simp [get_valid_access_token, h1, h2, hr]
    · intro hr
      simp [get_valid_access_token, h1, h2, hr]
  · intro h1 h2
    simp [get_valid_access_token, h1, h2]
  · by_cases h1 : (optTruthy cache.access_token &&
        expiryFuture cache.expires_at now) = true
    · have hne := optTruthy_ne_none (Bool.and_elim_left h1)
      simp [get_valid_access_token, h1, hne]
    · rw [Bool.not_eq_true] at h1
      by_cases h2 : optTruthy cache.refresh_token = true
      · cases hr : (_refresh_access_token cache (cache.refresh_token.getD "")
            now refreshResp).1 with
        | true =>
          obtain ⟨tok, htok⟩ := refresh_success_access cache
            (cache.refresh_token.getD "") now refreshResp hr
          simp [get_valid_access_token, h1, h2, hr, htok]
        | false =>
          rw [show (get_valid_access_token cache now refreshResp credsResp) =
            credentialsFallback ⟨none, none, none⟩ now credsResp from by
              simp [get_valid_access_token, h1, h2, hr],
            credentialsFallback_none_iff]
          simp [h1, h2, hr]
      · rw [Bool.not_eq_true] at h2
        rw [show (get_valid_access_token cache now refreshResp credsResp) =
          credentialsFallback cache now credsResp from by
            simp [get_valid_access_token, h1, h2],
          credentialsFallback_none_iff]
        simp [h1, h2]

/-- C1 witness: with an empty cache and a failing credentials request, every
branch fails and `None` is returned. -/
theorem c1_witness :
    (get_valid_access_token ⟨none, none, none⟩ 0 .err .err).1 = none := by
  have h := c1_get_valid_access_token_branches ⟨none, none, none⟩ 0 .err .err
  exact h.2.2.2.2.mpr ⟨by decide, Or.inr ⟨by decide, by decide⟩⟩

/-- C7 counterexample: a token response that carries `access_token` but no
`refresh_token` makes `_get_token_from_credentials` return `False` while
having already overwritten the cached `access_token` field — a partial
update on a failure path. -/
theorem c7_counterexample :
    (_get_token_from_credentials ⟨some "OLD", some "RT", some 5⟩ 0
      (.ok ⟨some "NEW", none, 100⟩)).1 = false ∧
    (_get_token_from_credentials ⟨some "OLD", some "RT", some 5⟩ 0
      (.ok ⟨some "NEW", none, 100⟩)).2 =
      ⟨some "NEW", some "RT", some 5⟩ ∧
    (⟨some "NEW", some "RT", some 5⟩ : TokenCache) ≠
      ⟨some "OLD", some "RT", some 5⟩ := by
  decide

/-- C7 amended: `_refresh_access_token` never changes the cache when it
returns `False`; `_get_token_from_credentials` leaves the cache unchanged on
an HTTP error and on a missing `access_token` key, but when the response has
`access_token` and lacks `refresh_token` it updates exactly the
`access_token` field before returning `False`. -/
theorem c7_failure_cache_updates (cache : TokenCache) (rt : String)
    (now : Int) (resp : HttpResult) :
    ((_refresh_access_token cache rt now resp).1 = false →
      (_refresh_access_token cache rt now resp).2 = cache) ∧
    ((_get_token_from_credentials cache now resp).1 = false →
      ((_get_token_from_credentials cache now resp).2 = cache ∨
       (∃ tok d, resp = .ok d ∧ d.access_token = some tok ∧
         d.refresh_token = none ∧
         (_get_token_from_credentials cache now resp).2 =
           { cache with access_token := some tok }))) := by
  constructor
  · intro h
    cases resp with
    | err => rfl
    | ok d =>
      cases hd : d.access_token with
      | none => simp [_refresh_access_token, hd]
      | some tok => simp [_refresh_access_token, hd] at h
  · intro h
    cases resp with
    | err => exact Or.inl rfl
    | ok d =>
      cases hd : d.access_token with
      | none => exact Or.inl (by simp [_get_token_from_credentials, hd])
      | some tok =>
        cases hr : d.refresh_token with
        | none =>
          refine Or.inr ⟨tok, d, rfl, hd, hr, ?_⟩
          simp [_get_token_from_credentials, hd, hr]
        | some rt2 => simp [_get_token_from_credentials, hd, hr] at h

/-- C7 witness: on an HTTP error both helpers leave the cache unchanged. -/
theorem c7_witness :
    (_refresh_access_token ⟨some "A", some "R", some 7⟩ "R" 0 .err).2 =
      ⟨some "A", some "R", some 7⟩ := by
  have h := c7_failure_cache_updates ⟨some "A", some "R", some 7⟩ "R" 0 .err
  exact h.1 (by decide)

/-- C2 counterexample: in `iol_api_handler` (iol.py) a first FCI attempt
that fails with HTTP **500** (not 401) is nevertheless followed by a second
FCI endpoint call — the retry is not 401-only, contradicting the claim that
any other status returns with no second attempt. -/
theorem c2_counterexample :
    (iol_api_handler true ⟨none, none, none⟩ 0 .err
      (.ok ⟨some "T", some "R", 1000⟩) (.httpErr 500) .err .err
      (.ok "DATA")).2.2 = 2 ∧
    (iol_api_handler true ⟨none, none, none⟩ 0 .err
      (.ok ⟨some "T", some "R", 1000⟩) (.httpErr 500) .err .err
      (.ok "DATA")).1 = 200 := by
  decide


theorem make_call_count_cases (cache : TokenCache) (now : Int)
    (r1 g1 : HttpResult) (a1 : ApiResult) (r2 g2 : HttpResult)
    (a2 : ApiResult) :
    (_make_authenticated_api_call cache now r1 g1 a1 r2 g2 a2).2.2 = 0 ∨
    (_make_authenticated_api_call cache now r1 g1 a1 r2 g2 a2).2.2 = 1 ∨
    ((_make_authenticated_api_call cache now r1 g1 a1 r2 g2 a2).2.2 = 2 ∧
      a1 = .httpErr 401) := by
  by_cases hT1 : optTruthy (get_valid_access_token cache now r1 g1).1 = false
  · left
    simp [_make_authenticated_api_call, hT1]
  · cases a1 with
    | ok b =>
      right; left
      simp [_make_authenticated_api_call, hT1]
    | netErr =>
      right; left
      simp [_make_authenticated_api_call, hT1]
    | httpErr s =>
      by_cases hs : (s == 401) = true
      · by_cases hT2 : optTruthy (get_valid_access_token
            ⟨none, (get_valid_access_token cache now r1 g1).2.refresh_token,
              none⟩ now r2 g2).1 = false
        · right; left
          simp [_make_authenticated_api_call, hT1, hs, hT2]
        · right; right
          have hs' : s = 401 := by simpa using hs
          subst hs'
          constructor
          · cases a2 <;> simp [_make_authenticated_api_call, hT1, hs, hT2]
          · rfl
      · right; left
        simp [_make_authenticated_api_call, hT1, hs]

theorem handler_count_cases (credsSet : Bool) (cache : TokenCache) (now : Int)
    (r1 g1 : HttpResult) (a1 : ApiResult) (r2 g2 : HttpResult)
    (a2 : ApiResult) :
    (iol_api_handler credsSet cache now r1 g1 a1 r2 g2 a2).2.2 = 0 ∨
    (iol_api_handler credsSet cache now r1 g1 a1 r2 g2 a2).2.2 = 1 ∨
    ((iol_api_handler credsSet cache now r1 g1 a1 r2 g2 a2).2.2 = 2 ∧
      ∀ b : String, a1 ≠ .ok b) := by
  cases credsSet with
  | false =>
    left
    simp [iol_api_handler]
  | true =>
    by_cases hT1 : optTruthy (get_valid_access_token cache now r1 g1).1 =
        false
    · left
      simp [iol_api_handler, hT1]
    · cases a1 with
      | ok b =>
        right; left
        simp [iol_api_handler, list_fci_data, hT1]
      | netErr =>
        by_cases hT2 : optTruthy (get_valid_access_token
            (get_valid_access_token cache now r1 g1).2 now r2 g2).1 = false
        · right; left
          simp [iol_api_handler, list_fci_data, hT1, hT2]
        · right; right
          refine ⟨?_, by simp⟩
          cases a2 with
          | ok b2 => simp [iol_api_handler, list_fci_data, hT1, hT2]
          | netErr => simp [iol_api_handler, list_fci_data, hT1, hT2]
          | httpErr s2 =>
            by_cases hs2 : (s2 == 401) = true <;>
              simp [iol_api_handler, list_fci_data, hT1, hT2, hs2]
      | httpErr s =>
        by_cases hs : (s == 401) = true
        · by_cases hT2 : optTruthy (get_valid_access_token
              ⟨none, (get_valid_access_token cache now r1 g1).2.refresh_token,
                none⟩ now r2 g2).1 = false
          · right; left
            simp [iol_api_handler, list_fci_data, hT1, hs, hT2]
          · right; right
            refine ⟨?_, by simp⟩
            cases a2 with
            | ok b2 => simp [iol_api_handler, list_fci_data, hT1, hs, hT2]
            | netErr => simp [iol_api_handler, list_fci_data, hT1, hs, hT2]
            | httpErr s2 =>
              by_cases hs2 : (s2 == 401) = true <;>
                simp [iol_api_handler, list_fci_data, hT1, hs, hT2, hs2]
        · by_cases hT2 : optTruthy (get_valid_access_token
              (get_valid_access_token cache now r1 g1).2 now r2 g2).1 = false
          · right; left
            simp [iol_api_handler, list_fci_data, hT1, hs, hT2]
          · right; right
            refine ⟨?_, by simp⟩
            cases a2 with
            | ok b2 => simp [iol_api_handler, list_fci_data, hT1, hs, hT2]
            | netErr => simp [iol_api_handler, list_fci_data, hT1, hs, hT2]
            | httpErr s2 =>
              by_cases hs2 : (s2 == 401) = true <;>
                simp [iol_api_handler, list_fci_data, hT1, hs, hT2, hs2]

/-- C2 amended: `_make_authenticated_api_call` (cloud_run_job/iol.py)
performs at most one retry, retries only after a 401, and returns `None`
after a single attempt on a network error or any non-401 status; in
`iol_api_handler` (iol.py) at most one retry is performed and it happens
only after a failed first attempt, but it is triggered by any failure, not
only 401. -/
theorem c2_retry_policy (credsSet : Bool) (cache : TokenCache) (now : Int)
    (r1 g1 : HttpResult) (a1 : ApiResult) (r2 g2 : HttpResult)
    (a2 : ApiResult) :
    (_make_authenticated_api_call cache now r1 g1 a1 r2 g2 a2).2.2 ≤ 2 ∧
    ((_make_authenticated_api_call cache now r1 g1 a1 r2 g2 a2).2.2 = 2 →
      a1 = .httpErr 401) ∧
    (a1 = .netErr →
      optTruthy (get_valid_access_token cache now r1 g1).1 = true →
      (_make_authenticated_api_call cache now r1 g1 a1 r2 g2 a2).1 = none ∧
      (_make_authenticated_api_call cache now r1 g1 a1 r2 g2 a2).2.2 = 1) ∧
    (∀ s : Nat, a1 = .httpErr s → s ≠ 401 →
      optTruthy (get_valid_access_token cache now r1 g1).1 = true →
      (_make_authenticated_api_call cache now r1 g1 a1 r2 g2 a2).1 = none ∧
      (_make_authenticated_api_call cache now r1 g1 a1 r2 g2 a2).2.2 = 1) ∧
    (iol_api_handler credsSet cache now r1 g1 a1 r2 g2 a2).2.2 ≤ 2 ∧
    ((iol_api_handler credsSet cache now r1 g1 a1 r2 g2 a2).2.2 = 2 →
      ∀ b : String, a1 ≠ .ok b) := by
  have hm := make_call_count_cases cache now r1 g1 a1 r2 g2 a2
  have hh := handler_count_cases credsSet cache now r1 g1 a1 r2 g2 a2
  refine ⟨?_, ?_, ?_, ?_, ?_, ?_⟩
  · rcases hm with h | h | ⟨h, _⟩ <;> omega
  · intro h2
    rcases hm with h | h | ⟨h, ha⟩
    · omega
    · omega
    · exact ha
  · intro ha hT
    subst ha
    simp [_make_authenticated_api_call, hT]
  · intro s ha hs hT
    subst ha
    simp [_make_authenticated_api_call, hT, hs]
  · rcases hh with h | h | ⟨h, _⟩ <;> omega
  · intro h2
    rcases hh with h | h | ⟨h, ha⟩
    · omega
    · omega
    · exact ha

/-- C2 witness: with a valid cached token and a network error on the first
attempt, `_make_authenticated_api_call` returns `None` after exactly one
endpoint request. -/
theorem c2_witness :
    (_make_authenticated_api_call ⟨some "T", some "R", some 10⟩ 0 .err .err
      .netErr .err .err .netErr).1 = none ∧
    (_make_authenticated_api_call ⟨some "T", some "R", some 10⟩ 0 .err .err
      .netErr .err .err .netErr).2.2 = 1 := by
  have h := c2_retry_policy true ⟨some "T", some "R", some 10⟩ 0 .err .err
    .netErr .err .err .netErr
  exact h.2.2.1 rfl (by decide)

/-- C3 counterexample: `alpha_vantage_handler` with unset environment
variables executes a bare `return`, handing `None` back to the framework,
contradicting the claim that no handler ever returns a bare `None`. -/
theorem c3_counterexample :
    alpha_vantage_handler false "GET" [] none noFetch =
      HandlerResp.bareNone := by
  rfl

/-- C3 amended: `get_report_data` and `bq_load_data` always produce a real
response (unexpected exceptions become a 500 with an error body, statuses
drawn from 200/400/405/500); `alpha_vantage_handler` does not follow the
pattern: it returns a bare `None` exactly when the environment is unset or
the method is neither POST nor GET, and it raises an unhandled `NameError`
exactly on a POST with an empty `symbols` list. -/
theorem c3_handler_responses :
    (∀ o : MainOutcome, ∃ b : String, ∃ st : Nat,
      get_report_data o = .jsonResp (some b) st ∧ (st = 200 ∨ st = 500) ∧
      (o = .raised → st = 500)) ∧
    (∀ (method content_type : String) (envOk : Bool)
        (data : Option (Option (List (List String)))) (bq : BqOutcome),
      (bq_load_data method content_type envOk data bq).1 = 200 ∨
      (bq_load_data method content_type envOk data bq).1 = 400 ∨
      (bq_load_data method content_type envOk data bq).1 = 405 ∨
      (bq_load_data method content_type envOk data bq).1 = 500) ∧
    (∀ (envSet : Bool) (method : String) (postSymbols : List String)
        (getSymbolArg : Option String) (fetch : String → Option String),
      (alpha_vantage_handler envSet method postSymbols getSymbolArg fetch =
          .bareNone ↔
        envSet = false ∨ (method ≠ "POST" ∧ method ≠ "GET")) ∧
      (alpha_vantage_handler envSet method postSymbols getSymbolArg fetch =
          .raisedExn ↔
        envSet = true ∧ method = "POST" ∧ postSymbols = [])) := by
  refine ⟨?_, ?_, ?_⟩
  · intro o
    cases o with
    | stepError msg => exact ⟨_, 500, rfl, Or.inr rfl, by simp⟩
    | raised => exact ⟨_, 500, rfl, Or.inr rfl, by simp⟩
    | okData d => exact ⟨_, 200, rfl, Or.inl rfl, by simp⟩
  · intro method content_type envOk data bq
    unfold bq_load_data
    repeat' split
    all_goals simp
  · intro envSet method postSymbols getSymbolArg fetch
    cases envSet with
    | false => simp [alpha_vantage_handler]
    | true =>
      by_cases hp : method = "POST"
      · subst hp
        cases hq : (postSymbols.map
            (fun s => _get_symbol_latest s fetch)).getLast? with
        | none =>
          have hnil : postSymbols = [] := by
            cases postSymbols with
            | nil => rfl
            | cons x xs => simp [List.getLast?_eq_none_iff] at hq
          simp [alpha_vantage_handler, hq, hnil]
        | some v =>
          have hne : postSymbols ≠ [] := by
            intro h
            subst h
            simp at hq
          simp [alpha_vantage_handler, hq, hne]
      · by_cases hg : method = "GET"
        · subst hg
          simp [alpha_vantage_handler]
        · simp [alpha_vantage_handler, hp, hg]

/-- C3 witness: a PUT request with the environment set also falls off the
end of `alpha_vantage_handler` and yields a bare `None`. -/
theorem c3_witness :
    alpha_vantage_handler true "PUT" ["A"] none noFetch =
      HandlerResp.bareNone := by
  have h := (c3_handler_responses.2.2 true "PUT" ["A"] none noFetch).1
  exact h.mpr (Or.inr ⟨by decide, by decide⟩)

theorem symbolsLoop_bad :
    ∀ (syms : List (List String)) (fake : Option (List String)),
      (∃ s ∈ syms, badSymbol s) →
      (∃ s', symbolsLoop syms fake = .badLength s') ∨
      (∃ s', symbolsLoop syms fake = .badDate s') := by
  intro syms
  induction syms with
  | nil =>
    intro fake h
    obtain ⟨s, hs, _⟩ := h
    exact absurd hs (List.not_mem_nil s)
  | cons s rest ih =>
    intro fake h
    by_cases hl : s.length = 4
    · by_cases hd : strptime_ok (s.getD 3 "") = true
      · have hbad : ∃ x ∈ rest, badSymbol x := by
          obtain ⟨x, hx, hb⟩ := h
          rcases List.mem_cons.mp hx with hx0 | hx1
          · subst hx0
            rcases hb with hb | hb
            · exact absurd hl hb
            · rw [hd] at hb
              cases hb
          · exact ⟨x, hx1, hb⟩
        have := ih (some s) hbad
        rw [symbolsLoop, if_neg (by simp [hl]),
          if_neg (show ¬(!strptime_ok (s.getD 3 "")) = true by
            rw [hd]; decide)]
        exact this
      · right
        refine ⟨s, ?_⟩
        rw [symbolsLoop, if_neg (by simp [hl]),
          if_pos (show (!strptime_ok (s.getD 3 "")) = true by
            rw [Bool.not_eq_true] at hd; rw [hd]; decide)]
    · left
      refine ⟨s, ?_⟩
      rw [symbolsLoop, if_pos hl]

/-- C4: for a JSON POST with the environment configured, `bq_load_data`
returns 400 and starts no BigQuery load job whenever the payload is falsy
or lacks a `symbols` key, and whenever some listed symbol does not have
exactly 4 elements or has a fourth element that does not parse as
`%Y-%m-%dT%H:%M:%S`. -/
theorem c4_bq_load_validation
    (data : Option (Option (List (List String)))) (bq : BqOutcome) :
    ((data = none ∨ data = some none) →
      bq_load_data "POST" "application/json" true data bq = (400, false)) ∧
    (∀ syms : List (List String), data = some (some syms) →
      (∃ s ∈ syms, badSymbol s) →
      bq_load_data "POST" "application/json" true data bq = (400, false)) := by
  constructor
  · intro h
    rcases h with h | h <;> subst h <;> rfl
  · intro syms hdata hbad
    subst hdata
    rcases symbolsLoop_bad syms none hbad with ⟨s', hs'⟩ | ⟨s', hs'⟩ <;>
      simp [bq_load_data, hs']

/-- C4 witness: a symbol whose fourth element is `2025-02-30T10:00:00`
(February 30 does not exist) is rejected with a 400 and no load job. -/
theorem c4_witness :
    bq_load_data "POST" "application/json" true
      (some (some [["GOOG", "US", "100.5", "2025-02-30T10:00:00"]]))
      .okLoad = (400, false) := by
  have h := c4_bq_load_validation
    (some (some [["GOOG", "US", "100.5", "2025-02-30T10:00:00"]])) .okLoad
  exact h.2 _ rfl ⟨["GOOG", "US", "100.5", "2025-02-30T10:00:00"],
    by decide, Or.inr (by decide)⟩

theorem runLoop_spec (ext : String × String × String → Option String) :
    ∀ (ts : List (String × String × String)) (acc : RunResults),
      runLoop ext ts acc =
        ⟨acc.success ++ ts.filterMap (fun t => (ext t).map
            (fun uri => (⟨t.1, t.2.1, t.2.2, uri⟩ : SuccessEntry))),
         acc.failed ++ (ts.filter (fun t => (ext t).isNone)).map
            (fun t => (⟨t.1, t.2.1, t.2.2⟩ : FailedEntry)),
         acc.total⟩ := by
  intro ts
  induction ts with
  | nil => intro acc; simp [runLoop]
  | cons t rest ih =>
    intro acc
    cases he : ext t with
    | some uri =>
      simp only [runLoop, he]
      rw [ih]
      simp [List.filterMap_cons, List.filter_cons, he, List.append_assoc]
    | none =>
      simp only [runLoop, he]
      rw [ih]
      simp [List.filterMap_cons, List.filter_cons, he, List.append_assoc]

theorem classify_length (ext : String × String × String → Option String) :
    ∀ ts : List (String × String × String),
      (ts.filterMap (fun t => (ext t).map
          (fun uri => (⟨t.1, t.2.1, t.2.2, uri⟩ : SuccessEntry)))).length +
      (ts.filter (fun t => (ext t).isNone)).length = ts.length := by
  intro ts
  induction ts with
  | nil => rfl
  | cons t rest ih =>
    cases he : ext t with
    | some uri =>
      rw [List.filterMap_cons, List.filter_cons, he]
      simp only [Option.map_some', Option.isNone_some, Bool.false_eq_true,
        if_false, List.length_cons]
      omega
    | none =>
      rw [List.filterMap_cons, List.filter_cons, he]
      simp only [Option.map_none', Option.isNone_none, if_true,
        List.length_cons]
      omega

/-- C8: `AlphaVantageExtractor.run` classifies every symbol into exactly one
of `results.success` / `results.failed` (in input order), records
`total = len(symbols)`, and exits 0 iff at least one symbol succeeded. -/
theorem c8_extractor_run_classification (mode bucket run_date : String)
    (symbols : List (String × String × String))
    (oracle : String × String × String → ExtractOutcome) :
    (extractorRun mode bucket run_date symbols oracle).1.total =
      symbols.length ∧
    (extractorRun mode bucket run_date symbols oracle).1.success =
      symbols.filterMap (fun t =>
        (extract_symbol mode bucket run_date t.1 t.2.1 t.2.2 (oracle t)).map
          (fun uri => ⟨t.1, t.2.1, t.2.2, uri⟩)) ∧
    (extractorRun mode bucket run_date symbols oracle).1.failed =
      (symbols.filter (fun t =>
        (extract_symbol mode bucket run_date t.1 t.2.1 t.2.2
          (oracle t)).isNone)).map (fun t => ⟨t.1, t.2.1, t.2.2⟩) ∧
    (extractorRun mode bucket run_date symbols oracle).1.success.length +
      (extractorRun mode bucket run_date symbols oracle).1.failed.length =
      (extractorRun mode bucket run_date symbols oracle).1.total ∧
    ((extractorRun mode bucket run_date symbols oracle).2 = 0 ↔
      (extractorRun mode bucket run_date symbols oracle).1.success ≠ []) := by
  have hrun := runLoop_spec
    (fun t => extract_symbol mode bucket run_date t.1 t.2.1 t.2.2 (oracle t))
    symbols ⟨[], [], symbols.length⟩
  have hlen := classify_length
    (fun t => extract_symbol mode bucket run_date t.1 t.2.1 t.2.2 (oracle t))
    symbols
  refine ⟨?_, ?_, ?_, ?_, ?_⟩
  · simp [extractorRun, hrun]
  · simp [extractorRun, hrun]
  · simp [extractorRun, hrun]
  · simp [extractorRun, hrun, hlen]
  · have hexit : (extractorRun mode bucket run_date symbols oracle).2 =
        if (extractorRun mode bucket run_date
            symbols oracle).1.success.isEmpty then 1 else 0 := rfl
    rw [hexit]
    by_cases he : (extractorRun mode bucket run_date
        symbols oracle).1.success.isEmpty = true
    · have hnil : (extractorRun mode bucket run_date
          symbols oracle).1.success = [] := by
        cases h : (extractorRun mode bucket run_date
            symbols oracle).1.success with
        | nil => rfl
        | cons a as => rw [h] at he; simp at he
      simp [he, hnil]
    · have hne : (extractorRun mode bucket run_date
          symbols oracle).1.success ≠ [] := by
        intro h
        rw [h] at he
        exact he rfl
      simp [he, hne]

/-- C5: the manifest written by the extractor lists under `results.success`
exactly the URIs of the successfully extracted symbols (failed ones only
under `results.failed`), the extractor and loader use the same manifest
path for the same mode and run date, and `get_files_to_load` on that
manifest returns exactly the `gcs_uri` values of the `success` entries, in
order. -/
theorem c5_manifest_roundtrip (mode bucket run_date extracted_at : String)
    (symbols : List (String × String × String))
    (oracle : String × String × String → ExtractOutcome) :
    (_write_manifest mode run_date extracted_at
        (extractorRun mode bucket run_date symbols oracle).1).1 =
      loader_manifest_path mode run_date ∧
    get_files_to_load (.found (_write_manifest mode run_date extracted_at
        (extractorRun mode bucket run_date symbols oracle).1).2) =
      (extractorRun mode bucket run_date symbols oracle).1.success.map
        (fun e => e.gcs_uri) ∧
    (extractorRun mode bucket run_date symbols oracle).1.success.map
        (fun e => e.gcs_uri) =
      symbols.filterMap (fun t =>
        extract_symbol mode bucket run_date t.1 t.2.1 t.2.2 (oracle t)) ∧
    (extractorRun mode bucket run_date symbols oracle).1.failed =
      (symbols.filter (fun t =>
        (extract_symbol mode bucket run_date t.1 t.2.1 t.2.2
          (oracle t)).isNone)).map (fun t => ⟨t.1, t.2.1, t.2.2⟩) := by
  have hrun := runLoop_spec
    (fun t => extract_symbol mode bucket run_date t.1 t.2.1 t.2.2 (oracle t))
    symbols ⟨[], [], symbols.length⟩
  refine ⟨rfl, rfl, ?_, ?_⟩
  · simp only [extractorRun, hrun, List.nil_append, List.map_filterMap]
    congr 1
    funext t
    cases extract_symbol mode bucket run_date t.1 t.2.1 t.2.2 (oracle t) <;>
      rfl
  · simp [extractorRun, hrun]

theorem mk_data_append (s t : String) :
    String.mk (s.data ++ t.data) = s ++ t := by
  cases s
  cases t
  rfl

/-- C9 counterexample: for the extractor-producible URI of symbol `Araw`,
`_move_to_processed`'s `str.replace` rewrites **both** occurrences of
`raw/`, so the destination is not the source path with only its leading
`raw/` replaced: the symbol directory is mangled as well. -/
theorem c9_counterexample :
    extract_symbol "daily" "b" "2025-01-01" "Araw" "US" "N" .okFetch =
      some "gs://b/raw/daily/alphavantage/US_N_Araw/2025-01-01.csv" ∧
    moveDestPath "b" "gs://b/raw/daily/alphavantage/US_N_Araw/2025-01-01.csv" =
      "processed/daily/alphavantage/US_N_Aprocessed/2025-01-01.csv" ∧
    moveDestPath "b"
        "gs://b/raw/daily/alphavantage/US_N_Araw/2025-01-01.csv" ≠
      "processed/daily/alphavantage/US_N_Araw/2025-01-01.csv" := by
  decide

/-- C9 amended: extractor data files live under `raw/{mode}/alphavantage/`
and the manifest at `manifests/{mode}/alphavantage/{run_date}.json`;
`_move_to_processed` replaces **every** occurrence of `raw/` with
`processed/`, which coincides with replacing only the leading `raw/`
(leaving every other character unchanged) exactly when `raw/` does not
occur in the remainder of the blob path. -/
theorem c9_path_handling :
    (∀ mode country exchange symbol run_date : String,
      (extractBlobPath mode country exchange symbol run_date).data =
        ("raw/" ++ mode ++ "/alphavantage/").data ++
          (country ++ "_" ++ exchange ++ "_" ++ symbol ++ "/" ++ run_date ++
            ".csv").data) ∧
    (∀ (mode run_date extracted_at : String) (results : RunResults),
      (_write_manifest mode run_date extracted_at results).1.data =
        ("manifests/" ++ mode ++ "/alphavantage/" ++ run_date ++
          ".json").data) ∧
    (∀ rest : String, hasSub "raw/".data rest.data = false →
      pyReplace ("raw/" ++ rest) "raw/" "processed/" =
        "processed/" ++ rest) := by
  have hseg : ∀ X : List Char,
      "/".data ++ ("alphavantage".data ++ ("/".data ++ X)) =
        "/alphavantage/".data ++ X := fun _ => rfl
  refine ⟨?_, ?_, ?_⟩
  · intro mode country exchange symbol run_date
    simp only [extractBlobPath, DIRECTORY, String.data_append,
      List.append_assoc]
    rw [hseg]
  · intro mode run_date extracted_at results
    simp only [_write_manifest, DIRECTORY, String.data_append,
      List.append_assoc]
    rw [hseg]
  · intro rest h
    have hpat : "raw/".data = 'r' :: "aw/".data := rfl
    have hpr : pyReplace ("raw/" ++ rest) "raw/" "processed/" =
        String.mk (replaceAllL 'r' "aw/".data "processed/".data
          ("raw/" ++ rest).data) := rfl
    rw [hpr, String.data_append, hpat, replaceAllL_pat_append,
      replaceAllL_of_hasSub_false 'r' "aw/".data "processed/".data rest.data
        (by rw [hpat] at h; exact h)]
    exact mk_data_append "processed/" rest

/-- C9 witness: an ordinary blob path contains `raw/` only as its leading
prefix, and the move destination is the claim's expected path. -/
theorem c9_witness :
    pyReplace ("raw/" ++ "daily/alphavantage/US_NASDAQ_GOOG/2025-01-01.csv")
        "raw/" "processed/" =
      "processed/" ++ "daily/alphavantage/US_NASDAQ_GOOG/2025-01-01.csv" := by
  exact c9_path_handling.2.2 "daily/alphavantage/US_NASDAQ_GOOG/2025-01-01.csv"
    (by decide)

/-- C10: the record serialized by `bq_storage_write_batch` is independent of
the request body: the symbol, datetime and market are fixed literals, and
two invocations with different bodies produce the same serialized rows for
the same random draw (differing at most in `value` across draws). -/
theorem c10_record_independent_of_body (b1 b2 : List (String × String))
    (rand r1 r2 : Int) (streamOk : Bool) :
    (bq_storage_write_batch true "POST" true b1 rand streamOk).2 =
      (bq_storage_write_batch true "POST" true b2 rand streamOk).2 ∧
    (bq_storage_write_batch true "POST" true b1 rand streamOk).2 =
      [⟨"META", rand, "2025-06-08T16:42:31.190280", "US"⟩] ∧
    (processed_record r1).symbol = (processed_record r2).symbol ∧
    (processed_record r1).market = (processed_record r2).market ∧
    (processed_record r1).datetime = (processed_record r2).datetime := by
  refine ⟨rfl, ?_, rfl, rfl, rfl⟩
  cases streamOk <;> rfl
